import Mathlib

/-!
Shallow embedding of the `github-template-rust-cli` repository: the data
model and operations of `src/args.rs`, `src/config.rs` and
`src/commands/upgrade.rs`, with theorems checking the claims of the
specification about them.

Rust machine integers are modelled as `Nat` (with explicit saturation or
bounds where the width matters), Rust `String` as Lean `String`, fallible
operations as `Except`, and the effectful parts of the upgrade flow as
pure functions over an explicit environment describing the responses of
the outside world, returning the list of side-effecting steps performed.
-/

/-- A single-quote string, used to rebuild the quoted error messages of
the source, whose format strings wrap a value in single quotes. -/
def squote : String := String.singleton (Char.ofNat 39)

/-- Wrap a string in single quotes, as the format strings of the source do. -/
def quoted (s : String) : String := squote ++ s ++ squote

/-- Rust `str::to_lowercase` restricted to the ASCII inputs the program
compares (log-level names). -/
def lowercase (s : String) : String := ⟨s.data.map Char.toLower⟩

/-- The error kind of a Rust `std::io::Error`, as far as the program
inspects it (`ErrorKind::PermissionDenied` in `apply_update`; everything
built by `io::Error::other` has a non-PermissionDenied kind). -/
inductive IoErrorKind where
  | permissionDenied
  | otherKind
  deriving DecidableEq, Repr

/-- A Rust `std::io::Error`: an error kind plus its message. -/
structure IoError where
  kind : IoErrorKind
  msg : String
  deriving DecidableEq, Repr

/-- Modelled from the spec: the `Error` type of the crate (`src/error.rs` is
declared by `mod error;` in `main.rs` but its definition is not in the
source tree). Its variants are taken from the call sites
(`Error::Io(std::io::Error)`, `Error::Json(serde_json::Error)`,
`Error::Other(String)`) and the error taxonomy of the spec in section 7:
`ioFail` is `Error::Io`, `jsonFail` is `Error::Json`, `other` is
`Error::Other`. -/
inductive Error where
  | ioFail (e : IoError)
  | jsonFail (msg : String)
  | other (msg : String)
  deriving DecidableEq, Repr

/- ---------------------------------------------------------------------
src/args.rs
--------------------------------------------------------------------- -/

/-- `LogLevel` of `src/args.rs`: syslog-style log levels with
discriminants 0–7 (`Emergency = 0` … `Debug = 7`); `Error` is the
`#[default]` variant. -/
inductive LogLevel where
  | emergency
  | alert
  | critical
  | error
  | warning
  | notice
  | info
  | debug
  deriving DecidableEq, Repr, Inhabited

namespace LogLevel

/-- The numeric discriminant of a level: Rust `self as u8`. -/
def toNat : LogLevel → Nat
  | .emergency => 0
  | .alert => 1
  | .critical => 2
  | .error => 3
  | .warning => 4
  | .notice => 5
  | .info => 6
  | .debug => 7

/-- `LogLevel::from_numeric` of `src/args.rs`: levels for 0–7, `None`
otherwise. -/
def from_numeric (n : Nat) : Option LogLevel :=
  match n with
  | 0 => some .emergency
  | 1 => some .alert
  | 2 => some .critical
  | 3 => some .error
  | 4 => some .warning
  | 5 => some .notice
  | 6 => some .info
  | 7 => some .debug
  | _ => none

/-- `LogLevel::increment` of `src/args.rs`: `self as u8`, saturating add
of `n` (u8 saturation at 255), capped with `.min(Debug as u8)`, converted
back with `from_numeric(..).unwrap_or(Debug)`. -/
def increment (l : LogLevel) (n : Nat) : LogLevel :=
  let current := l.toNat
  let new_level := (min (current + n) 255).min (LogLevel.debug.toNat)
  (from_numeric new_level).getD .debug

/-- The `Display` implementation for `LogLevel` in `src/args.rs`. -/
def display : LogLevel → String
  | .emergency => "emergency"
  | .alert => "alert"
  | .critical => "critical"
  | .error => "error"
  | .warning => "warning"
  | .notice => "notice"
  | .info => "info"
  | .debug => "debug"

end LogLevel

/-- The error type `LogLevelParseError` of `src/args.rs`. -/
inductive LogLevelParseError where
  | invalidName (s : String)
  | invalidNumeric (n : Nat)
  deriving DecidableEq, Repr

/-- Rust `s.parse::<u8>()`: an optional leading `+`, then one or more
ASCII digits, value at most 255; anything else (including overflow) is a
parse failure. -/
def parseU8 (s : String) : Option Nat :=
  let cs := s.data
  let digits := if cs.head? = some (Char.ofNat 43) then cs.tail else cs
  if digits ≠ [] ∧ digits.all Char.isDigit then
    let v := digits.foldl (fun acc c => acc * 10 + (c.toNat - 48)) 0
    if v ≤ 255 then some v else none
  else none

/-- `FromStr for LogLevel` in `src/args.rs`: numbers are tried first via
`from_numeric`; otherwise the lowercased name is matched against the
accepted spellings. -/
def LogLevel.from_str (s : String) : Except LogLevelParseError LogLevel :=
  match parseU8 s with
  | some n =>
    match from_numeric n with
    | some l => .ok l
    | none => .error (.invalidNumeric n)
  | none =>
    match lowercase s with
    | "emergency" => .ok .emergency
    | "emerg" => .ok .emergency
    | "alert" => .ok .alert
    | "critical" => .ok .critical
    | "crit" => .ok .critical
    | "error" => .ok .error
    | "err" => .ok .error
    | "warning" => .ok .warning
    | "warn" => .ok .warning
    | "notice" => .ok .notice
    | "info" => .ok .info
    | "debug" => .ok .debug
    | _ => .error (.invalidName s)

/-- `GlobalArgs` of `src/args.rs` (the fields read by
`effective_log_level`; `config` is carried for fidelity). -/
structure GlobalArgs where
  config : String
  verbose : Nat
  log_level : Option LogLevel

/-- `effective_log_level` of `src/args.rs`: the explicit level (or the
default `Error`), incremented by the verbose count when it is positive. -/
def effective_log_level (args : GlobalArgs) : LogLevel :=
  let base_level := args.log_level.getD .error
  if args.verbose > 0 then base_level.increment args.verbose else base_level

/- ---------------------------------------------------------------------
src/config.rs
--------------------------------------------------------------------- -/

/-- `Profile` of `src/config.rs`: output directory (a `PathBuf`, modelled
as its string), log level string, and parallel job count (`u32`). -/
structure Profile where
  output_dir : String
  log_level : String
  parallel_jobs : Nat
  deriving DecidableEq, Repr

/-- `Config` of `src/config.rs`. The `HashMap<String, Profile>` is
modelled as an association list with distinct keys; `contains_key` and
iteration map to list lookup and traversal (validation is
order-independent in its Ok/Err outcome). -/
structure Config where
  default_profile : String
  profiles : List (String × Profile)
  deriving DecidableEq, Repr

/-- `Default for Config` in `src/config.rs`: profiles `local`, `ci`,
`release` and default profile `local`. -/
def Config.defaultConfig : Config :=
  { default_profile := "local"
    profiles :=
      [ ("local", { output_dir := "./output", log_level := "debug", parallel_jobs := 4 })
      , ("ci", { output_dir := "/tmp/ci-output", log_level := "error", parallel_jobs := 1 })
      , ("release", { output_dir := "./dist", log_level := "warning", parallel_jobs := 8 }) ] }

/-- The per-profile checks of `Config::validate`: non-empty output
directory, `parallel_jobs` not zero, and a recognised log level
(lowercased, one of error/warn/warning/info/debug/trace). -/
def validateProfile (name : String) (p : Profile) : Except Error Unit :=
  if p.output_dir = "" then
    .error (.other ("Output directory cannot be empty in profile " ++ quoted name))
  else if p.parallel_jobs = 0 then
    .error (.other ("Parallel jobs must be at least 1 in profile " ++ quoted name))
  else if ¬ (["error", "warn", "warning", "info", "debug", "trace"].contains
      (lowercase p.log_level)) then
    .error (.other ("Invalid log level " ++ quoted p.log_level ++ " in profile "
      ++ quoted name ++ ". Valid levels: error, warn, info, debug, trace"))
  else .ok ()

/-- The profile-iteration loop in `Config::validate`, failing on the
first invalid profile. -/
def validateProfiles : List (String × Profile) → Except Error Unit
  | [] => .ok ()
  | (name, p) :: rest =>
    match validateProfile name p with
    | .ok _ => validateProfiles rest
    | .error e => .error e

/-- `Config::validate` of `src/config.rs`: the default profile must be a
key of the profiles map, and every profile must pass the per-profile
checks. -/
def Config.validate (c : Config) : Except Error Unit :=
  if ¬ (c.profiles.any fun kv => kv.1 = c.default_profile) then
    .error (.other ("Default profile " ++ quoted c.default_profile
      ++ " not found in profiles"))
  else validateProfiles c.profiles

/-- The filesystem/deserialisation environment of `Config::load_from_file`:
whether the configuration file exists, and what parsing its contents
yields (covering the read, the extension-based format choice, and the
JSON/YAML deserialisation, all of which only determine this result). -/
structure ConfigFile where
  fileExists : Bool
  parsed : Except Error Config

/-- `Config::load_from_file` of `src/config.rs`: a missing file yields
the default configuration; otherwise the parse result of the file. -/
def Config.load_from_file (f : ConfigFile) : Except Error Config :=
  if f.fileExists = false then .ok Config.defaultConfig else f.parsed

/-- `Config::load` of `src/config.rs`: load from the file, then
validate, then return the loaded configuration. -/
def Config.load (f : ConfigFile) : Except Error Config := do
  let config ← Config.load_from_file f
  let _ ← config.validate
  pure config

/-- The validity predicate the claim states of every loaded
configuration: the default
profile is a key of the profiles map and every profile has a non-empty
output directory, at least one parallel job, and a recognised log level. -/
def ConfigValid (c : Config) : Prop :=
  (∃ p, (c.default_profile, p) ∈ c.profiles) ∧
    ∀ kv ∈ c.profiles,
      kv.2.output_dir ≠ "" ∧ 1 ≤ kv.2.parallel_jobs ∧
        lowercase kv.2.log_level ∈ ["error", "warn", "warning", "info", "debug", "trace"]

/- ---------------------------------------------------------------------
src/commands/upgrade.rs
--------------------------------------------------------------------- -/

/-- `GithubAssetResponse` of `src/commands/upgrade.rs`. -/
structure GithubAssetResponse where
  browser_download_url : String
  name : String
  deriving DecidableEq, Repr

/-- `GithubResponse` of `src/commands/upgrade.rs`. -/
structure GithubResponse where
  tag_name : String
  assets : List GithubAssetResponse
  deriving DecidableEq, Repr

/-- `Args` of `src/commands/upgrade.rs`: the `--version` and `--force`
flags of the `upgrade` command. -/
structure UpgradeArgs where
  version : Option String
  force : Bool

/-- Rust `s.trim_start_matches('v')`: remove every leading `v`. -/
def trimStartV (s : String) : String := ⟨s.data.dropWhile (fun c => c = 'v')⟩

/-- `reqwest::StatusCode::is_success`: status in 200..=299. -/
def isSuccessStatus (s : Nat) : Bool := 200 ≤ s ∧ s < 300

/-- The HTTP response received by `get_release_info`: the status code,
its `Display` rendering (e.g. `404 Not Found`), and the result of
deserialising the body as a `GithubResponse`. -/
structure HttpReleaseResponse where
  status : Nat
  statusDisplay : String
  body : Except String GithubResponse

/-- `get_release_info` of `src/commands/upgrade.rs`, as a function of
the requested version and the received HTTP response: a 404 yields a
release-not-found / no-releases error depending on whether a version was
requested, any other non-success status is wrapped with its display into
an I/O error, and on success the deserialised body (or its
deserialisation error wrapped as an I/O error) is returned. -/
def get_release_info (requestedVersion : Option String)
    (resp : HttpReleaseResponse) : Except Error GithubResponse :=
  if ¬ isSuccessStatus resp.status then
    if resp.status = 404 then
      .error (.other
        (match requestedVersion with
          | some v => "Release " ++ quoted v ++ " not found"
          | none => "No releases found for this project"))
    else
      .error (.ioFail ⟨.otherKind, "GitHub API returned status: " ++ resp.statusDisplay⟩)
  else
    match resp.body with
    | .ok r => .ok r
    | .error e => .error (.ioFail ⟨.otherKind, e⟩)

/-- The expected asset name built in `find_platform_asset`:
the binary name, a dash, the release tag, an underscore, the target and
the `.tar.gz` suffix. -/
def expectedAssetName (binary_name tag target : String) : String :=
  binary_name ++ "-" ++ tag ++ "_" ++ target ++ ".tar.gz"

/-- The error message of `find_platform_asset` when no asset matches. -/
def noAssetMsg (target tag : String) : String :=
  "No pre-built binary found for target " ++ quoted target
    ++ " in release " ++ quoted tag

/-- `find_platform_asset` of `src/commands/upgrade.rs`, with the
build-time constants `APP_NAME` and `TARGET` as parameters: the first
asset whose name equals the expected name, or an error naming the target
and the release tag. -/
def find_platform_asset (binary_name target : String) (release : GithubResponse) :
    Except Error GithubAssetResponse :=
  match release.assets.find?
      (fun asset => asset.name == expectedAssetName binary_name release.tag_name target) with
  | some asset => .ok asset
  | none => .error (.other (noAssetMsg target release.tag_name))

/-- The download response seen by `download_update`: the optional
content length and the stream of body chunks, each chunk either bytes or
a transport error message. -/
structure DownloadResponse where
  contentLength : Option Nat
  chunks : List (Except String (List Nat))

/-- The chunk loop of `download_update`: accumulate each chunk into the
buffer and report `min(downloaded + chunk.len(), total_size)` to the
progress bar after each chunk; a chunk error aborts the download (the
partial buffer is dropped with the error). Returns the result (final
buffer on success) together with the list of positions reported to the
progress sink. -/
def downloadLoop (total : Nat) :
    List (Except String (List Nat)) → Nat → List Nat →
      Except Error (List Nat) × List Nat
  | [], _, buffer => (.ok buffer, [])
  | item :: rest, downloaded, buffer =>
    match item with
    | .error e => (.error (.ioFail ⟨.otherKind, e⟩), [])
    | .ok chunk =>
      let new := min (downloaded + chunk.length) total
      let next := downloadLoop total rest new (buffer ++ chunk)
      (next.1, new :: next.2)

/-- The download phase of `download_update` in `src/commands/upgrade.rs`:
a missing content length is an immediate error (no chunk is consumed);
otherwise the chunk loop runs from position 0 with an empty buffer. -/
def download_update (resp : DownloadResponse) : Except Error (List Nat) × List Nat :=
  match resp.contentLength with
  | none => (.error (.ioFail ⟨.otherKind, "Failed to get content length"⟩), [])
  | some total_size => downloadLoop total_size resp.chunks 0 []

/-- The environment of `apply_update` (non-Windows build, where
`cfg!(windows)` is false and the backup-rename blocks are compiled out):
whether the extracted binary exists in the staging directory, the result
of resolving the current executable path, and the result of the final
`rename` of the new binary over it. -/
structure InstallEnv where
  binaryExists : Bool
  currentExe : Except IoError String
  renameResult : Except IoError Unit

/-- `apply_update` of `src/commands/upgrade.rs` (non-Windows build):
fail if the extracted binary is absent; resolve the current executable
path (wrapping failure as an I/O error); then rename the new binary over
it, turning a permission-denied rename failure into a dedicated message
and any other rename failure into a plain I/O error. -/
def apply_update (env : InstallEnv) : Except Error Unit :=
  if env.binaryExists = false then
    .error (.other "Downloaded binary not found at: <staging>")
  else
    match env.currentExe with
    | .error e => .error (.ioFail ⟨.otherKind, e.msg⟩)
    | .ok current_exe =>
      match env.renameResult with
      | .ok _ => .ok ()
      | .error e =>
        match e.kind with
        | .permissionDenied =>
          .error (.other ("Permission denied: cannot write to " ++ current_exe
            ++ ". Try running with elevated privileges."))
        | _ => .error (.ioFail e)

/-- The side-effecting steps of the upgrade flow, in the order
`execute_async` performs them; the short-circuit check must leave no
download/extract/install step in the trace. -/
inductive UpgradeStep where
  | createCacheDir
  | resolveRelease
  | downloadAsset
  | extractArchive
  | installBinary
  deriving DecidableEq, Repr

/-- The outcome of a successful `execute_async` run: the code returns
`Ok(())` on both paths, distinguished by the final log line
(`Already on the latest version ...` vs `Successfully upgraded ...`). -/
inductive UpgradeOutcome where
  | alreadyUpToDate
  | upgraded
  deriving DecidableEq, Repr

/-- The environment of one `execute_async` invocation: the build-time
constants (`APP_VERSION`, `APP_NAME`, `TARGET`), and the responses of the
outside world to each side-effecting step. -/
structure UpgradeEnv where
  currentVersion : String
  binaryName : String
  target : String
  createDirResult : Except IoError Unit
  releaseHttp : HttpReleaseResponse
  downloadResp : DownloadResponse
  extractResult : Except IoError Unit
  installEnv : InstallEnv

/-- `execute_async` of `src/commands/upgrade.rs`, returning the result
together with the trace of side-effecting steps performed, in order:
create the cache directory, resolve the release, short-circuit when
`!force` and the tag with leading `v`s stripped equals the running
version, otherwise select the platform asset, download and extract the
update, and install it. -/
def execute_async (args : UpgradeArgs) (env : UpgradeEnv) :
    Except Error UpgradeOutcome × List UpgradeStep :=
  match env.createDirResult with
  | .error e => (.error (.ioFail ⟨.otherKind, e.msg⟩), [.createCacheDir])
  | .ok _ =>
    match get_release_info args.version env.releaseHttp with
    | .error e => (.error e, [.createCacheDir, .resolveRelease])
    | .ok release_info =>
      if args.force = false ∧ trimStartV release_info.tag_name = env.currentVersion then
        (.ok .alreadyUpToDate, [.createCacheDir, .resolveRelease])
      else
        match find_platform_asset env.binaryName env.target release_info with
        | .error e => (.error e, [.createCacheDir, .resolveRelease])
        | .ok _asset =>
          match (download_update env.downloadResp).1 with
          | .error e =>
            (.error e, [.createCacheDir, .resolveRelease, .downloadAsset])
          | .ok _buffer =>
            match env.extractResult with
            | .error e =>
              (.error (.ioFail ⟨.otherKind, e.msg⟩),
                [.createCacheDir, .resolveRelease, .downloadAsset, .extractArchive])
            | .ok _ =>
              match apply_update env.installEnv with
              | .error e =>
                (.error e,
                  [.createCacheDir, .resolveRelease, .downloadAsset,
                    .extractArchive, .installBinary])
              | .ok _ =>
                (.ok .upgraded,
                  [.createCacheDir, .resolveRelease, .downloadAsset,
                    .extractArchive, .installBinary])

/- ---------------------------------------------------------------------
Theorems
--------------------------------------------------------------------- -/

theorem from_numeric_toNat (l : LogLevel) : LogLevel.from_numeric l.toNat = some l := by
  cases l <;> rfl

theorem toNat_from_numeric_getD (m : Nat) (hm : m ≤ 7) :
    ((LogLevel.from_numeric m).getD .debug).toNat = m := by
  interval_cases m <;> rfl

/-- C8: `LogLevel::increment` is total on u8 counts (saturating, never
wrapping), its result has numeric value `min(l + n, 7)` (so it never
exceeds `Debug`), `increment(l, 0) = l`, and `effective_log_level` with
no explicit level and zero verbosity is `Error`. -/
theorem increment_spec (l : LogLevel) (n : Nat) (cfg : String) (h : n < 256) :
    (l.increment n).toNat = min (l.toNat + n) 7 ∧
      l.increment 0 = l ∧
      effective_log_level ⟨cfg, 0, none⟩ = .error := by
  refine ⟨?_, by cases l <;> rfl, rfl⟩
  have hd : LogLevel.debug.toNat = 7 := rfl
  show ((LogLevel.from_numeric ((min (l.toNat + n) 255).min LogLevel.debug.toNat)).getD
    .debug).toNat = min (l.toNat + n) 7
  rw [hd, toNat_from_numeric_getD _ (min_le_right _ _), min_assoc]
  norm_num

theorem increment_spec_witness :
    (LogLevel.warning.increment 200).toNat = min (LogLevel.warning.toNat + 200) 7 ∧
      LogLevel.warning.increment 0 = .warning ∧
      effective_log_level ⟨"config.json", 0, none⟩ = .error :=
  increment_spec .warning 200 "config.json" (by decide)

/-- C9: `LogLevel` conversions round-trip: `from_numeric (l as u8)`
returns the level back, parsing the `Display` rendering with `from_str`
returns the level back, and `from_numeric n` is `Some` exactly when
`n ≤ 7`. -/
theorem log_level_roundtrip (l : LogLevel) (n : Nat) (h : n < 256) :
    LogLevel.from_numeric l.toNat = some l ∧
      LogLevel.from_str l.display = .ok l ∧
      ((LogLevel.from_numeric n).isSome ↔ n ≤ 7) := by
  refine ⟨from_numeric_toNat l, by cases l <;> rfl, ?_⟩
  rcases n with _ | _ | _ | _ | _ | _ | _ | _ | m <;>
    simp [LogLevel.from_numeric, Option.isSome]

theorem log_level_roundtrip_witness :
    LogLevel.from_numeric LogLevel.info.toNat = some .info ∧
      LogLevel.from_str LogLevel.info.display = .ok .info ∧
      ((LogLevel.from_numeric 9).isSome ↔ (9 : Nat) ≤ 7) :=
  log_level_roundtrip .info 9 (by decide)

theorem validateProfile_ok_iff (name : String) (p : Profile) :
    validateProfile name p = .ok () ↔
      p.output_dir ≠ "" ∧ 1 ≤ p.parallel_jobs ∧
        lowercase p.log_level ∈ ["error", "warn", "warning", "info", "debug", "trace"] := by
  unfold validateProfile
  split_ifs with h1 h2 h3 <;> simp_all <;> omega

theorem validateProfiles_ok_iff (l : List (String × Profile)) :
    validateProfiles l = .ok () ↔ ∀ kv ∈ l, validateProfile kv.1 kv.2 = .ok () := by
  induction l with
  | nil => simp [validateProfiles]
  | cons hd tl ih =>
    unfold validateProfiles
    cases hv : validateProfile hd.1 hd.2 with
    | ok u => cases u; simp [hv, ih]
    | error e => simp [hv]

theorem validate_ok_valid (c : Config) (h : c.validate = .ok ()) : ConfigValid c := by
  unfold Config.validate at h
  split_ifs at h with hk
  · refine ⟨by simpa using hk, ?_⟩
    intro kv hkv
    exact (validateProfile_ok_iff kv.1 kv.2).mp
      ((validateProfiles_ok_iff c.profiles).mp h kv hkv)

/-- C10: every configuration returned by `Config::load` satisfies the
validation predicate (default profile present, non-empty output dirs,
positive parallel jobs, recognised log levels), and a missing
configuration file yields `Ok` with the default configuration — which
itself satisfies the predicate. -/
theorem config_load_validates (f : ConfigFile) (c : Config) :
    (Config.load f = .ok c → ConfigValid c) ∧
      (f.fileExists = false →
        Config.load f = .ok Config.defaultConfig ∧ ConfigValid Config.defaultConfig) := by
  have hdef : Config.defaultConfig.validate = .ok () := by rfl
  constructor
  · intro h
    unfold Config.load at h
    cases hl : Config.load_from_file f with
    | error e => rw [hl] at h; exact absurd h (by simp [Bind.bind, Except.bind])
    | ok c0 =>
      rw [hl] at h
      cases hv : c0.validate with
      | error e =>
        rw [show (do
              let config ← Except.ok c0
              let _ ← config.validate
              pure config : Except Error Config) = c0.validate.bind fun _ => .ok c0 from rfl,
          hv] at h
        exact absurd h (by simp [Except.bind])
      | ok u =>
        cases u
        have hc : c0 = c := by
          rw [show (do
                let config ← Except.ok c0
                let _ ← config.validate
                pure config : Except Error Config) = c0.validate.bind fun _ => .ok c0 from rfl,
            hv] at h
          simpa [Except.bind] using h
        exact hc ▸ validate_ok_valid c0 hv
  · intro hmiss
    have hload : Config.load_from_file f = .ok Config.defaultConfig := by
      unfold Config.load_from_file
      simp [hmiss]
    refine ⟨?_, validate_ok_valid _ hdef⟩
    unfold Config.load
    rw [show (do
          let config ← Config.load_from_file f
          let _ ← config.validate
          pure config : Except Error Config) =
        (Config.load_from_file f).bind (fun config => config.validate.bind fun _ => .ok config)
        from rfl, hload]
    simp [Except.bind, hdef]

theorem config_load_validates_witness :
    Config.load ⟨false, .error (.other "unused")⟩ = .ok Config.defaultConfig ∧
      ConfigValid Config.defaultConfig := by
  have h := config_load_validates ⟨false, .error (.other "unused")⟩ Config.defaultConfig
  exact ⟨(h.2 rfl).1, h.1 (h.2 rfl).1⟩

theorem find_first_match (p : GithubAssetResponse → Bool)
    (pre post : List GithubAssetResponse) (a : GithubAssetResponse)
    (hpre : ∀ b ∈ pre, p b = false) (ha : p a = true) :
    List.find? p (pre ++ a :: post) = some a := by
  induction pre with
  | nil => simp [List.find?, ha]
  | cons b tl ih =>
    have hb : p b = false := hpre b (by simp)
    simp only [List.cons_append, List.find?, hb]
    exact ih fun x hx => hpre x (by simp [hx])

/-- C2: asset selection only ever returns an asset of the release whose
name is exactly the deterministic expected name
`<app-name>-<tag>_<platform-target>.tar.gz`, and when no asset bears
that name it fails with the no-asset-for-platform error naming the
target and the tag — never falling back to another asset. -/
theorem find_platform_asset_spec (binary_name target : String) (release : GithubResponse) :
    (∀ a, find_platform_asset binary_name target release = .ok a →
        a ∈ release.assets ∧
          a.name = expectedAssetName binary_name release.tag_name target) ∧
      ((∀ a ∈ release.assets,
          a.name ≠ expectedAssetName binary_name release.tag_name target) →
        find_platform_asset binary_name target release =
          .error (.other (noAssetMsg target release.tag_name))) := by
  constructor
  · intro a h
    unfold find_platform_asset at h
    cases hf : List.find?
        (fun asset => asset.name == expectedAssetName binary_name release.tag_name target)
        release.assets with
    | none => rw [hf] at h; exact Except.noConfusion h
    | some b =>
      rw [hf] at h
      have hba : b = a := by injection h
      subst hba
      exact ⟨List.mem_of_find?_eq_some hf, by simpa using List.find?_some hf⟩
  · intro hnone
    unfold find_platform_asset
    rw [List.find?_eq_none.mpr fun a ha => by simpa using hnone a ha]

theorem find_platform_asset_spec_witness :
    ((GithubAssetResponse.mk "https://dl/one" "app-v1.0.0_x86_64-unknown-linux-gnu.tar.gz") ∈
        (GithubResponse.mk "v1.0.0"
          [⟨"https://dl/one", "app-v1.0.0_x86_64-unknown-linux-gnu.tar.gz"⟩]).assets ∧
      (GithubAssetResponse.mk "https://dl/one"
          "app-v1.0.0_x86_64-unknown-linux-gnu.tar.gz").name =
        expectedAssetName "app" "v1.0.0" "x86_64-unknown-linux-gnu") ∧
      find_platform_asset "app" "x86_64-unknown-linux-gnu" ⟨"v1.0.0", []⟩ =
        .error (.other (noAssetMsg "x86_64-unknown-linux-gnu" "v1.0.0")) :=
  ⟨(find_platform_asset_spec "app" "x86_64-unknown-linux-gnu"
      ⟨"v1.0.0", [⟨"https://dl/one", "app-v1.0.0_x86_64-unknown-linux-gnu.tar.gz"⟩]⟩).1
      _ rfl,
    (find_platform_asset_spec "app" "x86_64-unknown-linux-gnu" ⟨"v1.0.0", []⟩).2
      (by simp)⟩

/-- C3 counterexample: a release whose asset list contains two assets
both named exactly the expected platform name is ambiguous (two
matches), yet `find_platform_asset` does not fail: it silently returns
the first of them. -/
theorem find_platform_asset_ambiguity_counterexample :
    ((GithubResponse.mk "v1"
          [⟨"https://one", "app-v1_t.tar.gz"⟩, ⟨"https://two", "app-v1_t.tar.gz"⟩]).assets.filter
        (fun a => a.name == expectedAssetName "app" "v1" "t")).length = 2 ∧
      find_platform_asset "app" "t"
          ⟨"v1", [⟨"https://one", "app-v1_t.tar.gz"⟩, ⟨"https://two", "app-v1_t.tar.gz"⟩]⟩ =
        .ok ⟨"https://one", "app-v1_t.tar.gz"⟩ :=
  ⟨rfl, rfl⟩

/-- C3 amended: asset selection fails only on absence of a match;
ambiguity is not an error: whenever the asset list splits as
`pre ++ a :: post` with nothing in `pre` matching and `a` matching, the
selection returns `a` — the first match — regardless of how many later
assets also match. -/
theorem find_platform_asset_first_match (binary_name target : String)
    (release : GithubResponse) (pre post : List GithubAssetResponse)
    (a : GithubAssetResponse)
    (hsplit : release.assets = pre ++ a :: post)
    (hpre : ∀ b ∈ pre, b.name ≠ expectedAssetName binary_name release.tag_name target)
    (ha : a.name = expectedAssetName binary_name release.tag_name target) :
    find_platform_asset binary_name target release = .ok a := by
  unfold find_platform_asset
  rw [hsplit, find_first_match _ pre post a
    (fun b hb => by simpa using hpre b hb) (by simpa using ha)]

theorem find_platform_asset_first_match_witness :
    find_platform_asset "app" "t"
        ⟨"v1", [⟨"https://one", "app-v1_t.tar.gz"⟩, ⟨"https://two", "app-v1_t.tar.gz"⟩]⟩ =
      .ok ⟨"https://one", "app-v1_t.tar.gz"⟩ :=
  find_platform_asset_first_match "app" "t"
    ⟨"v1", [⟨"https://one", "app-v1_t.tar.gz"⟩, ⟨"https://two", "app-v1_t.tar.gz"⟩]⟩
    [] [⟨"https://two", "app-v1_t.tar.gz"⟩] ⟨"https://one", "app-v1_t.tar.gz"⟩
    rfl (by simp) rfl

/-- C4: a download response without a content length fails immediately
with the transport error (an I/O-wrapped "Failed to get content length"),
for every possible chunk stream: no chunk is consumed, no progress is
reported, and no partial buffer is retained. -/
theorem download_update_no_content_length (chunks : List (Except String (List Nat))) :
    download_update ⟨none, chunks⟩ =
      (.error (.ioFail ⟨.otherKind, "Failed to get content length"⟩), []) := rfl

theorem downloadLoop_reports (total : Nat) :
    ∀ (chunks : List (Except String (List Nat))) (d : Nat) (buffer : List Nat),
      d ≤ total →
      List.Chain (· ≤ ·) d (downloadLoop total chunks d buffer).2 ∧
        ∀ r ∈ (downloadLoop total chunks d buffer).2, r ≤ total := by
  intro chunks
  induction chunks with
  | nil => intro d buffer hd; simp [downloadLoop]
  | cons item rest ih =>
    intro d buffer hd
    cases item with
    | error e => simp [downloadLoop]
    | ok chunk =>
      have hnew : min (d + chunk.length) total ≤ total := min_le_right _ _
      have hdnew : d ≤ min (d + chunk.length) total :=
        le_min (Nat.le_add_right _ _) hd
      obtain ⟨hchain, hbound⟩ := ih (min (d + chunk.length) total) (buffer ++ chunk) hnew
      refine ⟨?_, ?_⟩
      · exact List.Chain.cons hdnew hchain
      · intro r hr
        simp only [downloadLoop, List.mem_cons] at hr
        rcases hr with rfl | hr
        · exact hnew
        · exact hbound r hr

/-- C5: in the download chunk loop, the byte positions reported to the
progress sink are monotonically non-decreasing and never exceed the
advertised content length, for every chunk stream. -/
theorem download_reports_monotone (chunks : List (Except String (List Nat))) (total : Nat) :
    List.Chain' (· ≤ ·) (download_update ⟨some total, chunks⟩).2 ∧
      ∀ r ∈ (download_update ⟨some total, chunks⟩).2, r ≤ total := by
  obtain ⟨hchain, hbound⟩ := downloadLoop_reports total chunks 0 [] (Nat.zero_le _)
  exact ⟨List.Chain'.tail
    (show List.Chain' (· ≤ ·) (0 :: (downloadLoop total chunks 0 []).2) from hchain),
    hbound⟩

/-- C6: the release resolver classifies outcomes by status: a 404 with a
requested version fails with the release-not-found message carrying that
version; a 404 with no requested version fails with the
no-releases-available message; any other non-success status fails with
an I/O transport error carrying the status display. -/
theorem get_release_info_classification (v : String) (requested : Option String)
    (resp : HttpReleaseResponse) :
    (resp.status = 404 → requested = some v →
      get_release_info requested resp =
        .error (.other ("Release " ++ quoted v ++ " not found"))) ∧
      (resp.status = 404 → requested = none →
        get_release_info requested resp =
          .error (.other "No releases found for this project")) ∧
      (isSuccessStatus resp.status = false → resp.status ≠ 404 →
        get_release_info requested resp =
          .error (.ioFail
            ⟨.otherKind, "GitHub API returned status: " ++ resp.statusDisplay⟩)) := by
  refine ⟨?_, ?_, ?_⟩
  · intro h404 hreq
    unfold get_release_info
    simp [isSuccessStatus, h404, hreq]
  · intro h404 hreq
    unfold get_release_info
    simp [isSuccessStatus, h404, hreq]
  · intro hfail h404
    unfold get_release_info
    simp [hfail, h404]

theorem get_release_info_classification_witness :
    get_release_info (some "v2.0.0") ⟨404, "404 Not Found", .error "missing"⟩ =
        .error (.other ("Release " ++ quoted "v2.0.0" ++ " not found")) ∧
      get_release_info none ⟨404, "404 Not Found", .error "missing"⟩ =
        .error (.other "No releases found for this project") ∧
      get_release_info none ⟨500, "500 Internal Server Error", .error "boom"⟩ =
        .error (.ioFail
          ⟨.otherKind, "GitHub API returned status: " ++ "500 Internal Server Error"⟩) :=
  ⟨(get_release_info_classification "v2.0.0" (some "v2.0.0")
      ⟨404, "404 Not Found", .error "missing"⟩).1 rfl rfl,
    (get_release_info_classification "x" none
      ⟨404, "404 Not Found", .error "missing"⟩).2.1 rfl rfl,
    (get_release_info_classification "x" none
      ⟨500, "500 Internal Server Error", .error "boom"⟩).2.2 (by decide) (by decide)⟩

/-- C7: when the final rename of the new binary over the current
executable fails, a permission-denied failure surfaces as the dedicated
user-actionable message (an `Error::Other`, never a generic
`Error::Io`), while every other I/O failure of that rename surfaces as
the generic `Error::Io` wrapping the original error. -/
theorem apply_update_permission_classification (env : InstallEnv) (exe : String)
    (e : IoError)
    (hbin : env.binaryExists = true)
    (hexe : env.currentExe = .ok exe)
    (hren : env.renameResult = .error e) :
    (e.kind = .permissionDenied →
      apply_update env =
          .error (.other ("Permission denied: cannot write to " ++ exe
            ++ ". Try running with elevated privileges.")) ∧
        ∀ e2, apply_update env ≠ .error (.ioFail e2)) ∧
      (e.kind ≠ .permissionDenied → apply_update env = .error (.ioFail e)) := by
  obtain ⟨ek, em⟩ := e
  unfold apply_update
  rw [hbin, hexe, hren]
  cases ek
  · exact ⟨fun _ => ⟨rfl, fun e2 => by simp⟩, fun hne => absurd rfl hne⟩
  · exact ⟨fun hpe => absurd hpe (by simp), fun _ => rfl⟩

theorem apply_update_permission_classification_witness :
    (apply_update ⟨true, .ok "/usr/local/bin/app", .error ⟨.permissionDenied, "denied"⟩⟩ =
        .error (.other ("Permission denied: cannot write to " ++ "/usr/local/bin/app"
          ++ ". Try running with elevated privileges.")) ∧
      ∀ e2, apply_update ⟨true, .ok "/usr/local/bin/app",
        .error ⟨.permissionDenied, "denied"⟩⟩ ≠ .error (.ioFail e2)) ∧
      apply_update ⟨true, .ok "/usr/local/bin/app", .error ⟨.otherKind, "disk full"⟩⟩ =
        .error (.ioFail ⟨.otherKind, "disk full"⟩) :=
  ⟨(apply_update_permission_classification
      ⟨true, .ok "/usr/local/bin/app", .error ⟨.permissionDenied, "denied"⟩⟩
      "/usr/local/bin/app" ⟨.permissionDenied, "denied"⟩ rfl rfl rfl).1 rfl,
    (apply_update_permission_classification
      ⟨true, .ok "/usr/local/bin/app", .error ⟨.otherKind, "disk full"⟩⟩
      "/usr/local/bin/app" ⟨.otherKind, "disk full"⟩ rfl rfl rfl).2 (by decide)⟩

/-- C1: whenever the resolved release tag with leading `v` stripped
equals the embedded version of the running binary and `force` is false, the
upgrade orchestrator returns success with the already-up-to-date
outcome, and the step trace contains only the cache-directory creation
and the release resolution — no download, extraction, or install step —
with the resolution preceding the short-circuit decision. -/
theorem upgrade_short_circuit (args : UpgradeArgs) (env : UpgradeEnv)
    (rel : GithubResponse)
    (hforce : args.force = false)
    (hdir : env.createDirResult = .ok ())
    (hrel : get_release_info args.version env.releaseHttp = .ok rel)
    (htag : trimStartV rel.tag_name = env.currentVersion) :
    execute_async args env = (.ok .alreadyUpToDate, [.createCacheDir, .resolveRelease]) := by
  unfold execute_async
  rw [hdir, hrel]
  simp [hforce, htag]

theorem upgrade_short_circuit_witness :
    execute_async ⟨none, false⟩
        { currentVersion := "1.2.3"
          binaryName := "app"
          target := "x86_64-unknown-linux-gnu"
          createDirResult := .ok ()
          releaseHttp := ⟨200, "200 OK", .ok ⟨"v1.2.3", []⟩⟩
          downloadResp := ⟨none, []⟩
          extractResult := .ok ()
          installEnv := ⟨true, .ok "/usr/local/bin/app", .ok ()⟩ } =
      (.ok .alreadyUpToDate, [.createCacheDir, .resolveRelease]) :=
  upgrade_short_circuit ⟨none, false⟩ _ ⟨"v1.2.3", []⟩ rfl rfl rfl rfl
